import Mathlib

/-!
Verification of the ASEA-to-LZA VPC resource import engine
(source file: packages/@aws-accelerator/accelerator/lib/asea-resources/vpc-resources.ts).

The definitions below are a shallow embedding of the TypeScript source.
JavaScript truthiness is modelled explicitly: a missing value is `none`,
an empty string and the number 0 are falsy, every object is truthy.
Fallible code returns `Except String`.
-/

/-- JavaScript truthiness of an optional string value: `undefined` and the
empty string are falsy. -/
def jsTruthyOptStr : Option String → Bool
  | none => false
  | some s => !(s == "")

/-- True exactly when an `Except` value is in the error case. -/
def exceptIsError {ε α : Type} : Except ε α → Bool
  | Except.error _ => true
  | Except.ok _ => false

/-- Modelled from the spec: the Reference Exporter key format
`kind:container:name[:subname]` (the `getSsmPath` helper is not under src). -/
def ssmKey (kind : String) (parts : List String) : String :=
  kind ++ ":" ++ String.intercalate ":" parts

/-- A CloudFormation tag, an element of `resourceMetadata.Properties.Tags`. -/
structure CfnTag where
  key : String
  value : String
deriving DecidableEq

/-- A legacy resource record as seen by the tag-based Matcher: the fields of
the resource-mapping entries that the tag strategies consult. -/
structure TaggedResource where
  resourceType : String
  logicalResourceId : String
  physicalResourceId : String
  tags : List CfnTag
deriving DecidableEq

/-- True when the record carries a tag with key `Name` and the given value,
mirroring `Tags.find(tag => tag.Key === 'Name' && tag.Value === name)`
(a found tag object is always truthy). -/
def hasNameTag (r : TaggedResource) (name : String) : Bool :=
  (r.tags.find? (fun t => t.key == "Name" && t.value == name)).isSome

/-- Modelled from the spec: `findResourceByTag` of the `AseaResource` base
class (resource.ts, not under src) — primary matching strategy: select the
record whose `Name` tag equals the target entry's name, first match wins. -/
def findResourceByTag (resources : List TaggedResource) (name : String) :
    Option TaggedResource :=
  resources.find? (fun r => hasNameTag r name)

/-- Modelled from the spec: `filterResourcesByType` of the `AseaResource`
base class (resource.ts, not under src) — filter legacy records to the
given resource kind. -/
def filterResourcesByType (resources : List TaggedResource) (rType : String) :
    List TaggedResource :=
  resources.filter (fun r => r.resourceType == rType)

/-- One nested-stack record set: the container within which subnet matching
is scoped (`NestedAseaStackInfo`). -/
structure NestedStackInfo where
  logicalResourceId : String
  resources : List TaggedResource
deriving DecidableEq

/-- Embeds `getVpcResourceByTag`: walk the nested stacks in order, filter
each to VPC records and return the first stack together with its record
whose `Name` tag equals `vpcName`. -/
def getVpcResourceByTag (nestedStackList : List NestedStackInfo) (vpcName : String) :
    Option (NestedStackInfo × TaggedResource) :=
  nestedStackList.findSome? (fun st =>
    ((st.resources.filter (fun r => r.resourceType == "AWS::EC2::VPC")).find?
        (fun r => hasNameTag r vpcName)).map (fun r => (st, r)))

/-- Embeds `getSubnetResourceByTag`: filter the given nested stack's records
to subnets and select by `Name` tag. -/
def getSubnetResourceByTag (subnetName : String) (stack : NestedStackInfo) :
    Option TaggedResource :=
  findResourceByTag
    (stack.resources.filter (fun r => r.resourceType == "AWS::EC2::Subnet"))
    subnetName

/-- One pending SSM parameter of the `ssmParameters` array. -/
structure SsmParameterItem where
  logicalId : String
  parameterName : String
  stringValue : String
deriving DecidableEq

/-- Lookup in the `parameterMap` of `createSsmParameters`, modelled as an
association list from 1-based insertion position to parameter. -/
def ssmLookup (pmap : List (Nat × SsmParameterItem)) (k : Nat) :
    Option SsmParameterItem :=
  (pmap.find? (fun e => e.fst == k)).map (fun e => e.snd)

/-- Embeds the loop body of `createSsmParameters`: each parameter is
inserted into `parameterMap` at the running `index`, and for `index > 5`
a dependency on the parameter at position `index - (index % 5)` is
declared, with the error branch taken when that map lookup fails.
The result pairs each parameter with the position it depends on. -/
def createSsmParametersAux :
    List SsmParameterItem → Nat → List (Nat × SsmParameterItem) →
    Except String (List (SsmParameterItem × Option Nat))
  | [], _, _ => Except.ok []
  | p :: rest, index, pmap =>
    let pmap2 := (index, p) :: pmap
    if index > 5 then
      match ssmLookup pmap2 (index - index % 5) with
      | none => Except.error "Configuration validation failed at runtime."
      | some _ =>
        (createSsmParametersAux rest (index + 1) pmap2).map
          (fun l => (p, some (index - index % 5)) :: l)
    else
      (createSsmParametersAux rest (index + 1) pmap2).map
        (fun l => (p, none) :: l)

/-- Embeds `createSsmParameters`: the flush starts at index 1 with an empty
parameter map. -/
def createSsmParameters (params : List SsmParameterItem) :
    Except String (List (SsmParameterItem × Option Nat)) :=
  createSsmParametersAux params 1 []

/-- The dependency target the code computes for the 1-based position `i`:
none for the first five writes, otherwise position `i - (i % 5)`. -/
def ssmDependencyAt (i : Nat) : Option Nat :=
  if i ≤ 5 then none else some (i - i % 5)

/-- A twelve-entry pending-parameter list used as the concrete batching
scenario of the spec. -/
def twelveSsmParams : List SsmParameterItem :=
  List.replicate 12 { logicalId := "p", parameterName := "p", stringValue := "p" }

/-- The dependency position recorded for the write at 1-based position 6
of the twelve-entry run. -/
def sixthWriteDependency : Option (Option Nat) :=
  match createSsmParameters twelveSsmParams with
  | Except.ok l => (l.get? 5).map (fun e => e.snd)
  | Except.error _ => none

/-- A processed config rule (`SecurityGroupRuleInfo` in the source).
`ruleType` embeds the source field `type`, `fromPort` and `toPort`
the source fields `from` and `to`; a missing field is `none`. -/
structure SecurityGroupRuleInfo where
  protocol : String
  source : String
  sourceValue : String
  ruleType : Option String
  fromPort : Option Int
  toPort : Option Int
  sourceType : Option String
deriving DecidableEq

/-- The `Properties` of a legacy security-group rule record
(`AWS::EC2::SecurityGroupIngress` or `...Egress`): `sourceSecurityGroupRef`
holds the `Ref` field of the `SourceSecurityGroupId` object when present. -/
structure SgRuleRecord where
  ipProtocol : Option String
  fromPort : Option Int
  toPort : Option Int
  cidrIp : Option String
  sourceSecurityGroupRef : Option String
deriving DecidableEq

/-- Embeds the per-existing-rule body of the ingress classifier in
`createSecurityGroups`: each flag requires the legacy property to be
truthy (JavaScript: a present non-empty string, a present non-zero
number, or a present object) and equal to the config rule's value; for a
config rule of type `ALL` the port comparisons are plain strict equality
with the absent config ports. -/
def matchesIngressExisting (cfg : SecurityGroupRuleInfo) (ex : SgRuleRecord) : Bool :=
  let ipProtocol :=
    match ex.ipProtocol with
    | some s => !(s == "") && s == cfg.protocol
    | none => false
  let fromPort :=
    if cfg.ruleType == some "ALL" then ex.fromPort == cfg.fromPort
    else
      match ex.fromPort with
      | some n => !(n == 0) && some n == cfg.fromPort
      | none => false
  let toPort :=
    if cfg.ruleType == some "ALL" then ex.toPort == cfg.toPort
    else
      match ex.toPort with
      | some n => !(n == 0) && some n == cfg.toPort
      | none => false
  let cidrIp :=
    match ex.cidrIp with
    | some s => !(s == "") && s == cfg.sourceValue
    | none => false
  let sourceSecurityGroupId :=
    match ex.sourceSecurityGroupRef with
    | some r => r == cfg.sourceValue
    | none => false
  ipProtocol && fromPort && toPort && (cidrIp || sourceSecurityGroupId)

/-- Embeds the `existingIngressRuleEntry` loop: the config ingress rule is
classified as already existing when some legacy ingress rule of the group
matches (the loop breaks at the first match). -/
def ingressRuleClassifiedExisting (cfg : SecurityGroupRuleInfo)
    (rules : List SgRuleRecord) : Bool :=
  rules.any (matchesIngressExisting cfg)

/-- Follows the spec's words for claim C3: the legacy rule agrees with the
config rule on protocol, from-port and to-port, and agrees on either the
CIDR source or the referenced security-group identifier. -/
def specIngressAgrees (cfg : SecurityGroupRuleInfo) (ex : SgRuleRecord) : Bool :=
  ex.ipProtocol == some cfg.protocol &&
  ex.fromPort == cfg.fromPort &&
  ex.toPort == cfg.toPort &&
  (ex.cidrIp == some cfg.sourceValue || ex.sourceSecurityGroupRef == some cfg.sourceValue)

/-- The amended agreement predicate for claim C3: as `specIngressAgrees`,
but protocol agreement requires a non-empty protocol, port agreement for a
non-`ALL` rule requires the legacy ports to be present and non-zero, and
CIDR agreement requires a non-empty CIDR. -/
def specIngressAgreesAmended (cfg : SecurityGroupRuleInfo) (ex : SgRuleRecord) : Bool :=
  (ex.ipProtocol == some cfg.protocol && !(cfg.protocol == "")) &&
  (if cfg.ruleType == some "ALL" then
    ex.fromPort == cfg.fromPort && ex.toPort == cfg.toPort
  else
    ex.fromPort == cfg.fromPort && ex.toPort == cfg.toPort &&
    !(ex.fromPort == some 0) && !(ex.toPort == some 0) &&
    !(ex.fromPort == none) && !(ex.toPort == none)) &&
  ((ex.cidrIp == some cfg.sourceValue && !(cfg.sourceValue == "")) ||
    ex.sourceSecurityGroupRef == some cfg.sourceValue)

/-- Embeds the egress matcher passed to `egressRules.find` in
`createSecurityGroups`: every comparison conjunct is disjoined with
`true`, exactly as in the source. -/
def matchesEgressExisting (cfg : SecurityGroupRuleInfo) (ex : SgRuleRecord) : Bool :=
  ((match ex.ipProtocol with
    | some s => !(s == "") && s == cfg.protocol
    | none => false) || true) &&
  ((match ex.fromPort with
    | some n => !(n == 0) && some n == cfg.fromPort
    | none => false) || true) &&
  ((match ex.toPort with
    | some n => !(n == 0) && some n == cfg.toPort
    | none => false) || true) &&
  ((match ex.cidrIp with
    | some s => !(s == "") && s == cfg.sourceValue
    | none => false) || true) &&
  ((match ex.sourceSecurityGroupRef with
    | some r => r == cfg.sourceValue
    | none => false) || true)

/-- Embeds `egressRules.find(...)` for a config egress rule. -/
def findExistingEgressRule (cfg : SecurityGroupRuleInfo)
    (rules : List SgRuleRecord) : Option SgRuleRecord :=
  rules.find? (matchesEgressExisting cfg)

/-- The config egress rule is classified as already existing when the find
call returns a rule (a found record object is truthy). -/
def egressRuleClassifiedExisting (cfg : SecurityGroupRuleInfo)
    (rules : List SgRuleRecord) : Bool :=
  (findExistingEgressRule cfg rules).isSome

/-- One NAT gateway entry of the target VPC configuration. -/
structure NatGatewayItemModel where
  name : String
  subnet : String
deriving DecidableEq

/-- The mutable `CfnNatGateway` resource loaded from the included template:
its CloudFormation `ref` and its current (legacy) `subnetId`. -/
structure CfnNatGatewayModel where
  ref : String
  subnetId : String
deriving DecidableEq

/-- The observable outcome of `createNatGateways`: emitted log lines
(level, message), registered resource keys, and `subnetId` mutations
(NAT logical id, assigned subnet id). -/
structure NatGatewaysResult where
  logs : List (String × String)
  outcomes : List String
  mutations : List (String × String)
deriving DecidableEq

/-- Embeds the per-item loop of `createNatGateways`.  An unmatched NAT
gateway record is skipped silently (`continue`, no log, no outcome); for a
matched record the source reads `subnets[natGatewayItem.subnet].ref`,
which throws a `TypeError` when the subnet is absent from the created
subnets map, before the external-parameter fallback can run. -/
def createNatGatewaysLoop (vpcName : String)
    (natGatewayResources : List TaggedResource)
    (subnets : String → Option String)
    (external : String → Option String)
    (getNat : String → CfnNatGatewayModel) :
    List NatGatewayItemModel → Except String NatGatewaysResult
  | [] => Except.ok { logs := [], outcomes := [], mutations := [] }
  | item :: rest =>
    match findResourceByTag natGatewayResources item.name with
    | none => createNatGatewaysLoop vpcName natGatewayResources subnets external getNat rest
    | some natGatewayResource =>
      let natGateway := getNat natGatewayResource.logicalResourceId
      match subnets item.subnet with
      | none => Except.error "TypeError: cannot read ref of undefined"
      | some subnetRef =>
        let subnetId : Option String :=
          if !(subnetRef == "") then some subnetRef
          else external (ssmKey "subnet" [vpcName, natGateway.subnetId])
        let mutationsHere :=
          if jsTruthyOptStr subnetId then
            [(natGatewayResource.logicalResourceId, subnetId.getD "")]
          else []
        (createNatGatewaysLoop vpcName natGatewayResources subnets external getNat rest).map
          (fun r =>
            { logs := r.logs,
              outcomes := (vpcName ++ "/" ++ item.name) :: r.outcomes,
              mutations := mutationsHere ++ r.mutations })

/-- Embeds `createNatGateways`: the removed-from-configuration warning
guard followed by the per-item loop. -/
def createNatGateways (vpcName : String)
    (natGateways : Option (List NatGatewayItemModel))
    (resources : List TaggedResource)
    (subnets : String → Option String)
    (external : String → Option String)
    (getNat : String → CfnNatGatewayModel) : Except String NatGatewaysResult :=
  let natGatewayResources := filterResourcesByType resources "AWS::EC2::NatGateway"
  if natGateways == some [] && natGatewayResources.length > 0 then
    Except.ok
      { logs := [("WARN", "NAT Gateways are removed from configuration.")],
        outcomes := [], mutations := [] }
  else
    createNatGatewaysLoop vpcName natGatewayResources subnets external getNat
      (natGateways.getD [])

/-- One route of a route-table configuration (only its `target` matters to
the gateway-endpoint merger). -/
structure RouteTableEntryModel where
  target : String
deriving DecidableEq

/-- One route table of the target VPC configuration. -/
structure RouteTableConfigModel where
  name : String
  routes : List RouteTableEntryModel
deriving DecidableEq

/-- JavaScript truthiness of `list.find(item => item === id)`: the guard in
`getS3DynamoDbRouteTableIds` is falsy both when the identifier is absent
and when the found element is the empty string. -/
def jsFindTruthyStr (l : List String) (id : String) : Bool :=
  match l.find? (fun x => x == id) with
  | some s => !(s == "")
  | none => false

/-- Embeds `getS3DynamoDbRouteTableIds`: for every route of the route
table, append `routeTableId` to the s3 (resp. dynamodb) accumulator when
the route targets that service and the find guard is falsy. -/
def getS3DynamoDbRouteTableIds (routeTableItem : RouteTableConfigModel)
    (routeTableId : String) (s3List dynamodbList : List String) :
    List String × List String :=
  routeTableItem.routes.foldl
    (fun acc entry =>
      let s3Acc :=
        if entry.target == "s3" && !(jsFindTruthyStr acc.fst routeTableId) then
          acc.fst ++ [routeTableId]
        else acc.fst
      let dynamodbAcc :=
        if entry.target == "dynamodb" && !(jsFindTruthyStr acc.snd routeTableId) then
          acc.snd ++ [routeTableId]
        else acc.snd
      (s3Acc, dynamodbAcc))
    (s3List, dynamodbList)

/-- Embeds the accumulation loop of `gatewayEndpoints`: resolve each route
table's identifier from the prior exports, skip falsy identifiers
(`if (!routeTableId) continue`), and accumulate the s3 and dynamodb lists
across all target route tables before any endpoint property is written. -/
def accumulateEndpointRouteTableIds (vpcName : String)
    (routeTables : List RouteTableConfigModel)
    (external : String → Option String) : List String × List String :=
  routeTables.foldl
    (fun acc rt =>
      match external (ssmKey "routeTable" [vpcName, rt.name]) with
      | none => acc
      | some id =>
        if id == "" then acc
        else getS3DynamoDbRouteTableIds rt id acc.fst acc.snd)
    ([], [])

/-- Embeds the route-table-ids property update of one endpoint in
`gatewayEndpoints`.  The source captures `const routeTableIds =
endpoint.routeTableIds`, writes the service list to the property when the
captured value is undefined, pushes missing identifiers into the captured
array otherwise, and finally re-assigns the captured value to the
property — so the then-branch write is clobbered by the final
assignment. -/
def mergeGatewayEndpointRouteTableIds (initial : Option (List String))
    (serviceRouteTables : List String) : Option (List String) :=
  let routeTableIds := initial
  match routeTableIds with
  | none =>
    let _afterThenBranchWrite := some serviceRouteTables
    routeTableIds
  | some l =>
    some (serviceRouteTables.foldl
      (fun acc id => if acc.contains id then acc else acc ++ [id]) l)

/-- The target VPC attributes the constructor writes onto a matched VPC
record (`VpcConfig` fields used at the merge site). -/
structure VpcConfigModel where
  name : String
  cidrs : List String
  enableDnsHostnames : Option Bool
  enableDnsSupport : Option Bool
  instanceTenancy : Option String
deriving DecidableEq

/-- A matched legacy `CfnVPC` record: the attributes the merge writes plus
the unowned attributes (identifiers and tags). -/
structure VpcCfnRecord where
  logicalId : String
  physicalId : String
  tags : List CfnTag
  cidrBlock : Option String
  enableDnsHostnames : Option Bool
  enableDnsSupport : Option Bool
  instanceTenancy : Option String
deriving DecidableEq

/-- Embeds the VPC attribute merge of the constructor: `cidrBlock` becomes
the 0th configured CIDR, the DNS flags and tenancy are overwritten from
the config; nothing else is assigned. -/
def mergeVpcAttributes (cfg : VpcConfigModel) (vpc : VpcCfnRecord) : VpcCfnRecord :=
  { vpc with
    cidrBlock := cfg.cidrs.head?,
    enableDnsHostnames := cfg.enableDnsHostnames,
    enableDnsSupport := cfg.enableDnsSupport,
    instanceTenancy := cfg.instanceTenancy }

/-- One subnet entry of the target VPC configuration. -/
structure SubnetItemModel where
  name : String
  ipv4CidrBlock : String
  availabilityZone : String
  mapPublicIpOnLaunch : Option Bool
deriving DecidableEq

/-- A matched legacy `CfnSubnet` record: the attributes the merge writes
plus the unowned attributes. -/
structure SubnetCfnRecord where
  logicalId : String
  physicalId : String
  tags : List CfnTag
  cidrBlock : Option String
  availabilityZone : Option String
  mapPublicIpOnLaunch : Option Bool
deriving DecidableEq

/-- Embeds the subnet attribute merge of `createSubnets`: CIDR block from
the config, availability zone built as region followed by the zone
letter, and the map-public-IP flag; nothing else is assigned. -/
def mergeSubnetAttributes (region : String) (item : SubnetItemModel)
    (s : SubnetCfnRecord) : SubnetCfnRecord :=
  { s with
    cidrBlock := some item.ipv4CidrBlock,
    availabilityZone := some (region ++ item.availabilityZone),
    mapPublicIpOnLaunch := item.mapPublicIpOnLaunch }

/-- A legacy record addressed by a declared property value: its logical id
and its `Properties` bag restricted to string-valued entries. -/
structure PropResource where
  logicalResourceId : String
  properties : List (String × String)
deriving DecidableEq

/-- Lookup of a property value in a record's property bag. -/
def lookupProperty (l : List (String × String)) (k : String) : Option String :=
  (l.find? (fun e => e.fst == k)).map (fun e => e.snd)

/-- Modelled from the spec: `findResourceByName` of the `AseaResource` base
class (resource.ts, not under src) — secondary matching strategy: match by
a declared property value instead of a tag, first match wins. -/
def findResourceByName (resources : List PropResource) (propName value : String) :
    Option PropResource :=
  resources.find? (fun r => lookupProperty r.properties propName == some value)

/-- One firewall entry of the network-firewall configuration
(`NfwFirewallConfig` fields used by `createNetworkFirewall`). -/
structure NfwFirewallItemModel where
  name : String
  vpc : String
  firewallPolicy : String
  subnets : List String
  description : Option String
  deleteProtection : Option Bool
  firewallPolicyChangeProtection : Option Bool
  subnetChangeProtection : Option Bool
deriving DecidableEq

/-- The properties handed to `NetworkFirewall.includedCfnResource` for a
matched firewall record. -/
structure MergedFirewallProps where
  logicalId : String
  firewallPolicyArn : String
  name : String
  description : Option String
  subnets : List String
  vpcId : String
  deleteProtection : Option Bool
  firewallPolicyChangeProtection : Option Bool
  subnetChangeProtection : Option Bool
deriving DecidableEq

/-- Embeds the subnet-gathering loop of `createNetworkFirewall`: reading
`subnets[subnet].ref` throws when the subnet is absent from the map; a
falsy ref falls back to the prior-export lookup; only truthy identifiers
are pushed. -/
def gatherFirewallSubnetIds (vpcName : String)
    (subnets : String → Option String)
    (external : String → Option String) :
    List String → Except String (List String)
  | [] => Except.ok []
  | s :: rest =>
    match subnets s with
    | none => Except.error "TypeError: cannot read ref of undefined"
    | some subnetRef =>
      let subnetId : Option String :=
        if !(subnetRef == "") then some subnetRef
        else external (ssmKey "subnet" [vpcName, s])
      (gatherFirewallSubnetIds vpcName subnets external rest).map
        (fun l => if jsTruthyOptStr subnetId then subnetId.getD "" :: l else l)

/-- The in-run policy resolution of `createNetworkFirewall`: the policy
created this run is used when its name equals the firewall's policy
reference (`!!policy && firewallItem.firewallPolicy === policy?.name`). -/
def inRunPolicyArn (policy : Option (String × String))
    (firewallPolicyName : String) : Option String :=
  match policy with
  | some p => if firewallPolicyName == p.fst then some p.snd else none
  | none => none

/-- Embeds the policy resolution of `createNetworkFirewall`: the in-run
policy when truthy, otherwise the previously exported parameter. -/
def resolveFirewallPolicyArn (policy : Option (String × String))
    (firewallPolicyName : String)
    (external : String → Option String) : Option String :=
  let policyArn := inRunPolicyArn policy firewallPolicyName
  if jsTruthyOptStr policyArn then policyArn
  else external (ssmKey "nfwPolicy" [firewallPolicyName])

/-- Embeds the per-firewall body of `createNetworkFirewall`: no matched
record means the item is skipped; otherwise the subnets are gathered, the
policy reference resolved, the fatal error thrown when the resolution is
falsy, and the firewall record merged with the resolved policy
identifier. -/
def createNetworkFirewallItem (fwResources : List PropResource)
    (subnets : String → Option String)
    (external : String → Option String)
    (policy : Option (String × String))
    (vpcName vpcId : String) (item : NfwFirewallItemModel) :
    Except String (Option MergedFirewallProps) :=
  match findResourceByName fwResources "FirewallName" item.name with
  | none => Except.ok none
  | some firewallResource =>
    (gatherFirewallSubnetIds vpcName subnets external item.subnets).bind
      (fun subnetIds =>
        let policyArn := resolveFirewallPolicyArn policy item.firewallPolicy external
        if jsTruthyOptStr policyArn then
          Except.ok (some
            { logicalId := firewallResource.logicalResourceId,
              firewallPolicyArn := policyArn.getD "",
              name := item.name,
              description := item.description,
              subnets := subnetIds,
              vpcId := vpcId,
              deleteProtection := item.deleteProtection,
              firewallPolicyChangeProtection := item.firewallPolicyChangeProtection,
              subnetChangeProtection := item.subnetChangeProtection })
        else
          Except.error "Firewall is managed externally and no SSM Parameter found for policy")

/-- Additional concrete data used by the claim theorems below. -/
def ssmTwelveResult : List (SsmParameterItem × Option Nat) :=
  let p : SsmParameterItem := { logicalId := "p", parameterName := "p", stringValue := "p" }
  [(p, none), (p, none), (p, none), (p, none), (p, none),
   (p, some 5), (p, some 5), (p, some 5), (p, some 5),
   (p, some 10), (p, some 10), (p, some 10)]

theorem ssmLookup_cons_self (pmap : List (Nat × SsmParameterItem)) (index : Nat)
    (p : SsmParameterItem) : ssmLookup ((index, p) :: pmap) index = some p := by
  simp [ssmLookup, List.find?_cons]

theorem ssmLookup_cons_ne (pmap : List (Nat × SsmParameterItem)) (index k : Nat)
    (p : SsmParameterItem) (hne : k ≠ index) :
    ssmLookup ((index, p) :: pmap) k = ssmLookup pmap k := by
  simp only [ssmLookup, List.find?_cons]
  have : (index == k) = false := beq_eq_false_iff_ne.mpr (Ne.symm hne)
  rw [this]

theorem createSsmParametersAux_ok (params : List SsmParameterItem) :
    ∀ (index : Nat) (pmap : List (Nat × SsmParameterItem)),
    (∀ k, 1 ≤ k → k < index → (ssmLookup pmap k).isSome = true) →
    ∃ l, createSsmParametersAux params index pmap = Except.ok l ∧
      l.length = params.length ∧
      ∀ i (h : i < l.length),
        (l.get ⟨i, h⟩).snd =
          (if index + i ≤ 5 then none else some ((index + i) - (index + i) % 5)) := by
  induction params with
  | nil =>
    intro index pmap _
    exact ⟨[], rfl, rfl, fun i h => absurd h (by simp)⟩
  | cons p rest ih =>
    intro index pmap hinv
    have hinv2 : ∀ k, 1 ≤ k → k < index + 1 →
        (ssmLookup ((index, p) :: pmap) k).isSome = true := by
      intro k hk1 hk2
      by_cases hk : k = index
      · subst hk; rw [ssmLookup_cons_self]; rfl
      · rw [ssmLookup_cons_ne pmap index k p hk]
        exact hinv k hk1 (by omega)
    obtain ⟨l', hl', hlen, hdep⟩ := ih (index + 1) ((index, p) :: pmap) hinv2
    by_cases hidx : index > 5
    · have hkey : (ssmLookup ((index, p) :: pmap) (index - index % 5)).isSome = true := by
        have h5 : index % 5 < 5 := Nat.mod_lt _ (by omega)
        exact hinv2 _ (by omega) (by omega)
      obtain ⟨v, hv⟩ := Option.isSome_iff_exists.mp hkey
      refine ⟨(p, some (index - index % 5)) :: l', ?_, by simp [hlen], ?_⟩
      · simp only [createSsmParametersAux, if_pos hidx, hv, hl', Except.map]
      · intro i h
        match i with
        | 0 =>
          simp
          omega
        | j + 1 =>
          have hj : j < l'.length := by
            simpa using Nat.lt_of_succ_lt_succ (by simpa using h)
          have := hdep j hj
          simp only [List.get] at this ⊢
          rw [this]
          have harith : index + 1 + j = index + (j + 1) := by omega
          rw [harith]
    · refine ⟨(p, none) :: l', ?_, by simp [hlen], ?_⟩
      · simp only [createSsmParametersAux, if_neg hidx, hl', Except.map]
      · intro i h
        match i with
        | 0 =>
          simp
          rw [if_pos (by omega)]
        | j + 1 =>
          have hj : j < l'.length := by
            simpa using Nat.lt_of_succ_lt_succ (by simpa using h)
          have := hdep j hj
          simp only [List.get] at this ⊢
          rw [this]
          have harith : index + 1 + j = index + (j + 1) := by omega
          rw [harith]

/-- C9: the parameter-export flush never takes the error branch: for every
input list of pending export entries the map lookup at position
`index - (index % 5)` succeeds, because the current parameter is inserted
into the map before the dependency check and the looked-up position never
exceeds the current one. -/
theorem ssmParameterFlushNeverThrows (params : List SsmParameterItem) :
    exceptIsError (createSsmParameters params) = false := by
  obtain ⟨l, hl, -, -⟩ := createSsmParametersAux_ok params 1 []
    (fun k hk1 hk2 => by omega)
  simp [createSsmParameters, hl, exceptIsError]

/-- C1 (amended): in every successful run of the parameter-export flush,
the entry at 1-based position `i` declares no ordering dependency when
`i` is at most 5, and declares a dependency on the entry at position
`i - (i mod 5)` — the largest multiple of 5 not exceeding `i` — when
`i` is greater than 5. -/
theorem ssmParameterFlushDependencySchedule (params : List SsmParameterItem)
    (l : List (SsmParameterItem × Option Nat))
    (h : createSsmParameters params = Except.ok l) :
    ∀ i (hi : i < l.length), (l.get ⟨i, hi⟩).snd = ssmDependencyAt (i + 1) := by
  obtain ⟨l', hl', -, hdep⟩ := createSsmParametersAux_ok params 1 []
    (fun k hk1 hk2 => by omega)
  rw [createSsmParameters, hl'] at h
  cases h
  intro i hi
  rw [hdep i hi, ssmDependencyAt]
  have harith : 1 + i = i + 1 := by omega
  rw [harith]

/-- C1 counterexample: with 12 export calls, the write at position 6
declares a dependency on position `6 - (6 mod 5) = 5`, not on the write
exactly 5 positions earlier (position 1) as the claim states. -/
theorem ssmParameterFlushDependency_cex :
    sixthWriteDependency = some (some 5) ∧ sixthWriteDependency ≠ some (some 1) := by
  constructor
  · rfl
  · decide

/-- Witness for the amended C1 theorem at the twelve-entry run: position 6
depends on position 5. -/
theorem ssmParameterFlushDependencySchedule_witness :
    createSsmParameters twelveSsmParams = Except.ok ssmTwelveResult ∧
    (ssmTwelveResult.get ⟨5, by decide⟩).snd = ssmDependencyAt 6 :=
  ⟨rfl, ssmParameterFlushDependencySchedule twelveSsmParams ssmTwelveResult rfl 5 (by decide)⟩

/-- C2: every conjunct of the egress matcher is disjoined with true, so
the predicate holds for every pair of config rule and existing rule; the
find call therefore returns the first existing egress rule, and the
config egress rule is classified as already existing whenever at least
one legacy egress rule exists for the security group. -/
theorem egressRuleAlwaysMatches (cfg : SecurityGroupRuleInfo) (ex : SgRuleRecord)
    (rules : List SgRuleRecord) (hne : rules ≠ []) :
    matchesEgressExisting cfg ex = true ∧
    findExistingEgressRule cfg rules = rules.head? ∧
    egressRuleClassifiedExisting cfg rules = true := by
  have hall : ∀ e : SgRuleRecord, matchesEgressExisting cfg e = true := by
    intro e
    simp [matchesEgressExisting]
  refine ⟨hall ex, ?_, ?_⟩
  · cases rules with
    | nil => exact absurd rfl hne
    | cons a l =>
      simp [findExistingEgressRule, List.find?_cons, hall a]
  · cases rules with
    | nil => exact absurd rfl hne
    | cons a l =>
      simp [egressRuleClassifiedExisting, findExistingEgressRule, List.find?_cons, hall a]

/-- Witness for the C2 theorem at a concrete one-element legacy rule list. -/
theorem egressRuleAlwaysMatches_witness :
    matchesEgressExisting
      { protocol := "tcp", source := "10.0.0.0/16", sourceValue := "10.0.0.0/16",
        ruleType := none, fromPort := some 443, toPort := some 443, sourceType := none }
      { ipProtocol := some "udp", fromPort := some 53, toPort := some 53,
        cidrIp := some "192.168.0.0/24", sourceSecurityGroupRef := none } = true ∧
    findExistingEgressRule
      { protocol := "tcp", source := "10.0.0.0/16", sourceValue := "10.0.0.0/16",
        ruleType := none, fromPort := some 443, toPort := some 443, sourceType := none }
      [{ ipProtocol := some "udp", fromPort := some 53, toPort := some 53,
         cidrIp := some "192.168.0.0/24", sourceSecurityGroupRef := none }] =
      [{ ipProtocol := some "udp", fromPort := some 53, toPort := some 53,
         cidrIp := some "192.168.0.0/24", sourceSecurityGroupRef := none }].head? ∧
    egressRuleClassifiedExisting
      { protocol := "tcp", source := "10.0.0.0/16", sourceValue := "10.0.0.0/16",
        ruleType := none, fromPort := some 443, toPort := some 443, sourceType := none }
      [{ ipProtocol := some "udp", fromPort := some 53, toPort := some 53,
         cidrIp := some "192.168.0.0/24", sourceSecurityGroupRef := none }] = true :=
  egressRuleAlwaysMatches _ _ _ (by decide)

theorem matchesIngress_eq_amended (cfg : SecurityGroupRuleInfo) (ex : SgRuleRecord) :
    matchesIngressExisting cfg ex = specIngressAgreesAmended cfg ex := by
  rw [Bool.eq_iff_iff]
  unfold matchesIngressExisting specIngressAgreesAmended
  cases hall : cfg.ruleType == some "ALL" <;>
    cases hp : ex.ipProtocol <;> cases hf : ex.fromPort <;> cases ht : ex.toPort <;>
    cases hc : ex.cidrIp <;> cases hs : ex.sourceSecurityGroupRef <;>
    simp_all <;> aesop

theorem ingressMatch_fromPort_eq (cfg : SecurityGroupRuleInfo) (ex : SgRuleRecord)
    (h : matchesIngressExisting cfg ex = true) : ex.fromPort = cfg.fromPort := by
  rw [matchesIngress_eq_amended] at h
  unfold specIngressAgreesAmended at h
  cases hall : cfg.ruleType == some "ALL" <;> simp_all

/-- C3 counterexample: a config rule on port 0 agrees with an existing
rule on protocol, from-port, to-port and CIDR source, yet the classifier
does not mark it as existing (the legacy port 0 fails the JavaScript
truthiness guard), refuting the claimed if-and-only-if. -/
theorem ingressClassifier_cex :
    specIngressAgrees
      { protocol := "tcp", source := "10.0.0.0/16", sourceValue := "10.0.0.0/16",
        ruleType := none, fromPort := some 0, toPort := some 0, sourceType := none }
      { ipProtocol := some "tcp", fromPort := some 0, toPort := some 0,
        cidrIp := some "10.0.0.0/16", sourceSecurityGroupRef := none } = true ∧
    ingressRuleClassifiedExisting
      { protocol := "tcp", source := "10.0.0.0/16", sourceValue := "10.0.0.0/16",
        ruleType := none, fromPort := some 0, toPort := some 0, sourceType := none }
      [{ ipProtocol := some "tcp", fromPort := some 0, toPort := some 0,
         cidrIp := some "10.0.0.0/16", sourceSecurityGroupRef := none }] = false := by
  constructor
  · decide
  · decide

/-- C3 (amended): the classifier marks a config ingress rule as existing
if and only if some legacy ingress rule of the group agrees with it in
the amended sense (agreement on protocol, from-port, to-port, and on
either the CIDR source or the referenced security-group identifier, where
for a non-ALL rule the legacy ports must additionally be present and
non-zero, the config protocol non-empty, and an agreeing CIDR value
non-empty); and a config rule whose from-port differs from every legacy
rule's from-port is never classified as existing. -/
theorem ingressClassifierMatchesAmendedSpec (cfg : SecurityGroupRuleInfo)
    (rules : List SgRuleRecord) :
    (ingressRuleClassifiedExisting cfg rules = true ↔
      ∃ ex, ex ∈ rules ∧ specIngressAgreesAmended cfg ex = true) ∧
    ((∀ ex ∈ rules, ex.fromPort ≠ cfg.fromPort) →
      ingressRuleClassifiedExisting cfg rules = false) := by
  constructor
  · simp only [ingressRuleClassifiedExisting, List.any_eq_true, matchesIngress_eq_amended]
  · intro h
    rw [ingressRuleClassifiedExisting, List.any_eq_false]
    intro ex hmem hmatch
    exact h ex hmem (ingressMatch_fromPort_eq cfg ex hmatch)

/-- Witness for the amended C3 theorem: a config rule on port 443 with a
single legacy rule on port 80 is not classified as existing. -/
theorem ingressClassifierMatchesAmendedSpec_witness :
    ingressRuleClassifiedExisting
      { protocol := "tcp", source := "10.0.0.0/16", sourceValue := "10.0.0.0/16",
        ruleType := none, fromPort := some 443, toPort := some 443, sourceType := none }
      [{ ipProtocol := some "tcp", fromPort := some 80, toPort := some 80,
         cidrIp := some "10.0.0.0/16", sourceSecurityGroupRef := none }] = false :=
  (ingressClassifierMatchesAmendedSpec
    { protocol := "tcp", source := "10.0.0.0/16", sourceValue := "10.0.0.0/16",
      ruleType := none, fromPort := some 443, toPort := some 443, sourceType := none }
    [{ ipProtocol := some "tcp", fromPort := some 80, toPort := some 80,
       cidrIp := some "10.0.0.0/16", sourceSecurityGroupRef := none }]).2 (by decide)

/-- C4: evaluation of the NAT-gateway merger at a declared NAT gateway
whose subnet is in neither the created-subnets map nor resolvable
externally.  When the NAT gateway record is matched by tag the run throws
a `TypeError` while reading the ref of the missing subnet entry (the
external fallback is unreachable); when the record is unmatched the item
is skipped silently, with no warning log and no recorded outcome.  In
neither case is an `Excluded` outcome with a warning recorded. -/
theorem natGatewayMissingSubnet_eval :
    createNatGateways "Prod" (some [{ name := "ngw", subnet := "Prod-B" }])
      [{ resourceType := "AWS::EC2::NatGateway", logicalResourceId := "Nat1",
         physicalResourceId := "nat-1", tags := [{ key := "Name", value := "ngw" }] }]
      (fun _ => none) (fun _ => none)
      (fun _ => { ref := "natref", subnetId := "legacy-subnet" }) =
      Except.error "TypeError: cannot read ref of undefined" ∧
    createNatGateways "Prod" (some [{ name := "ngw", subnet := "Prod-B" }])
      []
      (fun _ => none) (fun _ => none)
      (fun _ => { ref := "natref", subnetId := "legacy-subnet" }) =
      Except.ok { logs := [], outcomes := [], mutations := [] } :=
  ⟨rfl, rfl⟩

/-- C5: evaluation of the gateway-endpoint merger at an endpoint with no
pre-existing route-table-ids property.  The accumulation across all
target route tables yields the s3 list `rt-1`, but the final property
write re-assigns the captured original value, leaving the property unset
instead of equal to the accumulated list. -/
theorem gatewayEndpointClobbered_eval :
    accumulateEndpointRouteTableIds "Prod"
      [{ name := "rtA", routes := [{ target := "s3" }] }]
      (fun k => if k == "routeTable:Prod:rtA" then some "rt-1" else none) =
      (["rt-1"], []) ∧
    mergeGatewayEndpointRouteTableIds none ["rt-1"] = none ∧
    mergeGatewayEndpointRouteTableIds none ["rt-1"] ≠ some ["rt-1"] :=
  ⟨rfl, rfl, by decide⟩

/-- C7: the network and subnet merges write only the attributes the
declarative specification owns; the logical identifier, the legacy
physical identifier and the tags of the record are identical before and
after the merge. -/
theorem mergeLeavesUnownedAttributesUntouched (cfg : VpcConfigModel)
    (vpc : VpcCfnRecord) (region : String) (item : SubnetItemModel)
    (s : SubnetCfnRecord) :
    ((mergeVpcAttributes cfg vpc).logicalId = vpc.logicalId ∧
     (mergeVpcAttributes cfg vpc).physicalId = vpc.physicalId ∧
     (mergeVpcAttributes cfg vpc).tags = vpc.tags) ∧
    ((mergeSubnetAttributes region item s).logicalId = s.logicalId ∧
     (mergeSubnetAttributes region item s).physicalId = s.physicalId ∧
     (mergeSubnetAttributes region item s).tags = s.tags) := by
  simp [mergeVpcAttributes, mergeSubnetAttributes]

theorem find_of_unique {α : Type} (p : α → Bool) :
    ∀ (l : List α) (r : α), r ∈ l → p r = true →
      (∀ r' ∈ l, p r' = true → r' = r) → l.find? p = some r := by
  intro l
  induction l with
  | nil => intro r hr; exact absurd hr (List.not_mem_nil r)
  | cons a l ih =>
    intro r hr hp huniq
    by_cases ha : p a = true
    · have : a = r := huniq a (List.mem_cons_self a l) ha
      subst this
      simp [List.find?_cons, ha]
    · have hpa : p a = false := by
        cases h : p a
        · rfl
        · exact absurd h ha
      rw [List.find?_cons, hpa]
      have hrl : r ∈ l := by
        cases List.mem_cons.mp hr with
        | inl h => subst h; exact absurd hp ha
        | inr h => exact h
      exact ih r hrl hp (fun r' hr' hp' => huniq r' (List.mem_cons_of_mem a hr') hp')

/-- C6 counterexample: a container holding two subnet records both tagged
`Name=X`; instantiating the claim at the second record fails, because the
matcher returns the first record tagged `Name=X`, not every such
record. -/
theorem subnetMatcher_cex :
    getSubnetResourceByTag "X"
      { logicalResourceId := "VpcStack",
        resources :=
          [{ resourceType := "AWS::EC2::Subnet", logicalResourceId := "SubA",
             physicalResourceId := "subnet-a", tags := [{ key := "Name", value := "X" }] },
           { resourceType := "AWS::EC2::Subnet", logicalResourceId := "SubB",
             physicalResourceId := "subnet-b", tags := [{ key := "Name", value := "X" }] }] } =
      some { resourceType := "AWS::EC2::Subnet", logicalResourceId := "SubA",
             physicalResourceId := "subnet-a", tags := [{ key := "Name", value := "X" }] } ∧
    ({ resourceType := "AWS::EC2::Subnet", logicalResourceId := "SubB",
       physicalResourceId := "subnet-b",
       tags := [{ key := "Name", value := "X" }] } : TaggedResource) ∈
      ({ logicalResourceId := "VpcStack",
         resources :=
          [{ resourceType := "AWS::EC2::Subnet", logicalResourceId := "SubA",
             physicalResourceId := "subnet-a", tags := [{ key := "Name", value := "X" }] },
           { resourceType := "AWS::EC2::Subnet", logicalResourceId := "SubB",
             physicalResourceId := "subnet-b", tags := [{ key := "Name", value := "X" }] }] } :
         NestedStackInfo).resources ∧
    hasNameTag
      { resourceType := "AWS::EC2::Subnet", logicalResourceId := "SubB",
        physicalResourceId := "subnet-b", tags := [{ key := "Name", value := "X" }] } "X" = true ∧
    ({ resourceType := "AWS::EC2::Subnet", logicalResourceId := "SubA",
       physicalResourceId := "subnet-a", tags := [{ key := "Name", value := "X" }] } : TaggedResource) ≠
      { resourceType := "AWS::EC2::Subnet", logicalResourceId := "SubB",
        physicalResourceId := "subnet-b", tags := [{ key := "Name", value := "X" }] } := by
  refine ⟨rfl, ?_, rfl, ?_⟩
  · decide
  · decide

/-- C6 (amended): the subnet matcher returns the first subnet record of
the queried container tagged `Name=X` — in particular, the record itself
whenever it is the unique such record in the container — and every record
either matcher returns lies in the queried container and carries the
queried kind and name tag, so a target entry never matches a record of
another container. -/
theorem tagMatcherScopedToContainer :
    (∀ (st : NestedStackInfo) (name : String) (r : TaggedResource),
      r ∈ st.resources → r.resourceType = "AWS::EC2::Subnet" →
      hasNameTag r name = true →
      (∀ r' ∈ st.resources, r'.resourceType = "AWS::EC2::Subnet" →
        hasNameTag r' name = true → r' = r) →
      getSubnetResourceByTag name st = some r) ∧
    (∀ (st : NestedStackInfo) (name : String) (r : TaggedResource),
      getSubnetResourceByTag name st = some r →
      r ∈ st.resources ∧ r.resourceType = "AWS::EC2::Subnet" ∧
        hasNameTag r name = true) ∧
    (∀ (nestedStackList : List NestedStackInfo) (name : String)
      (st : NestedStackInfo) (r : TaggedResource),
      getVpcResourceByTag nestedStackList name = some (st, r) →
      st ∈ nestedStackList ∧ r ∈ st.resources ∧
        r.resourceType = "AWS::EC2::VPC" ∧ hasNameTag r name = true) := by
  refine ⟨?_, ?_, ?_⟩
  · intro st name r hmem htype htag huniq
    rw [getSubnetResourceByTag, findResourceByTag]
    apply find_of_unique
    · exact List.mem_filter.mpr ⟨hmem, by simp [htype]⟩
    · exact htag
    · intro r' hr' hp'
      obtain ⟨hmem', htype'⟩ := List.mem_filter.mp hr'
      exact huniq r' hmem' (by simpa using htype') hp'
  · intro st name r h
    rw [getSubnetResourceByTag, findResourceByTag] at h
    have hmem := List.mem_of_find?_eq_some h
    obtain ⟨hmem', htype'⟩ := List.mem_filter.mp hmem
    have hfs := @List.find?_some _ _ _ _ h
    exact ⟨hmem', by simpa using htype', hfs⟩
  · intro nestedStackList name st r h
    rw [getVpcResourceByTag] at h
    obtain ⟨st', hst', hf⟩ := List.exists_of_findSome?_eq_some h
    obtain ⟨r', hr', heq⟩ := Option.map_eq_some'.mp hf
    injection heq with heq1 heq2
    subst heq1
    subst heq2
    have hmem := List.mem_of_find?_eq_some hr'
    obtain ⟨hmem', htype'⟩ := List.mem_filter.mp hmem
    have hfs := @List.find?_some _ _ _ _ hr'
    exact ⟨hst', hmem', by simpa using htype', hfs⟩

/-- Witness for the amended C6 theorem: a container with a unique subnet
record tagged `Name=Prod-A` is matched to exactly that record. -/
theorem tagMatcherScopedToContainer_witness :
    getSubnetResourceByTag "Prod-A"
      { logicalResourceId := "VpcStack",
        resources :=
          [{ resourceType := "AWS::EC2::Subnet", logicalResourceId := "SubA",
             physicalResourceId := "subnet-a",
             tags := [{ key := "Name", value := "Prod-A" }] }] } =
      some { resourceType := "AWS::EC2::Subnet", logicalResourceId := "SubA",
             physicalResourceId := "subnet-a",
             tags := [{ key := "Name", value := "Prod-A" }] } :=
  tagMatcherScopedToContainer.1
    { logicalResourceId := "VpcStack",
      resources :=
        [{ resourceType := "AWS::EC2::Subnet", logicalResourceId := "SubA",
           physicalResourceId := "subnet-a",
           tags := [{ key := "Name", value := "Prod-A" }] }] }
    "Prod-A"
    { resourceType := "AWS::EC2::Subnet", logicalResourceId := "SubA",
      physicalResourceId := "subnet-a",
      tags := [{ key := "Name", value := "Prod-A" }] }
    (by decide) rfl rfl (by decide)

theorem gatherFirewallSubnetIds_ok (vpcName : String)
    (subnets : String → Option String) (external : String → Option String) :
    ∀ (ss : List String), (∀ s ∈ ss, (subnets s).isSome = true) →
      ∃ ids, gatherFirewallSubnetIds vpcName subnets external ss = Except.ok ids := by
  intro ss
  induction ss with
  | nil => exact fun _ => ⟨[], rfl⟩
  | cons s rest ih =>
    intro h
    have hs : (subnets s).isSome = true := h s (List.mem_cons_self s rest)
    obtain ⟨v, hv⟩ := Option.isSome_iff_exists.mp hs
    obtain ⟨ids, hids⟩ := ih (fun x hx => h x (List.mem_cons_of_mem s hx))
    cases hg : gatherFirewallSubnetIds vpcName subnets external (s :: rest) with
    | ok ids2 => exact ⟨ids2, rfl⟩
    | error e =>
      rw [gatherFirewallSubnetIds, hv, hids] at hg
      exact absurd hg (by simp [Except.map])

theorem resolveFirewallPolicyArn_truthy (policy : Option (String × String))
    (firewallPolicyName : String) (external : String → Option String) :
    jsTruthyOptStr (resolveFirewallPolicyArn policy firewallPolicyName external) =
      (jsTruthyOptStr (inRunPolicyArn policy firewallPolicyName) ||
       jsTruthyOptStr (external (ssmKey "nfwPolicy" [firewallPolicyName]))) := by
  rw [resolveFirewallPolicyArn]
  cases h : jsTruthyOptStr (inRunPolicyArn policy firewallPolicyName) <;> simp [h]

/-- C8: for a firewall whose legacy record is matched and whose declared
subnets all resolve, the merger aborts with the fatal policy error if and
only if the policy reference is truthy-resolvable from neither the policy
created in the current run nor the previously exported parameter; and
whenever the merge succeeds, the merged record carries exactly the
resolved policy identifier. -/
theorem firewallPolicyFatalIffUnresolvable (fwResources : List PropResource)
    (subnets external : String → Option String)
    (policy : Option (String × String)) (vpcName vpcId : String)
    (item : NfwFirewallItemModel) (fr : PropResource)
    (hfound : findResourceByName fwResources "FirewallName" item.name = some fr)
    (hsub : ∀ s ∈ item.subnets, (subnets s).isSome = true) :
    (exceptIsError
        (createNetworkFirewallItem fwResources subnets external policy vpcName vpcId item) =
          true ↔
      (jsTruthyOptStr (inRunPolicyArn policy item.firewallPolicy) = false ∧
       jsTruthyOptStr (external (ssmKey "nfwPolicy" [item.firewallPolicy])) = false)) ∧
    (∀ m, createNetworkFirewallItem fwResources subnets external policy vpcName vpcId item =
        Except.ok (some m) →
      some m.firewallPolicyArn =
        resolveFirewallPolicyArn policy item.firewallPolicy external) := by
  obtain ⟨ids, hids⟩ := gatherFirewallSubnetIds_ok vpcName subnets external item.subnets hsub
  rw [createNetworkFirewallItem, hfound]
  cases htr : jsTruthyOptStr (resolveFirewallPolicyArn policy item.firewallPolicy external) with
  | true =>
    constructor
    · rw [hids]
      simp only [Except.bind, htr, if_true, exceptIsError]
      rw [resolveFirewallPolicyArn_truthy] at htr
      constructor
      · intro h; exact absurd h (by simp)
      · intro ⟨h1, h2⟩
        rw [h1, h2] at htr
        exact absurd htr (by simp)
    · intro m hm
      rw [hids] at hm
      simp only [Except.bind, htr, if_true] at hm
      injection hm with hm'
      injection hm' with hm''
      rw [← hm'']
      obtain ⟨v, hv⟩ : ∃ v, resolveFirewallPolicyArn policy item.firewallPolicy external = some v := by
        cases hr : resolveFirewallPolicyArn policy item.firewallPolicy external with
        | none => rw [hr] at htr; exact absurd htr (by simp [jsTruthyOptStr])
        | some v => exact ⟨v, rfl⟩
      rw [hv]
      simp
  | false =>
    constructor
    · rw [hids]
      simp only [Except.bind, htr, if_false, exceptIsError]
      rw [resolveFirewallPolicyArn_truthy] at htr
      constructor
      · intro _
        constructor
        · cases h1 : jsTruthyOptStr (inRunPolicyArn policy item.firewallPolicy)
          · rfl
          · rw [h1] at htr; simp at htr
        · cases h2 : jsTruthyOptStr (external (ssmKey "nfwPolicy" [item.firewallPolicy]))
          · rfl
          · rw [h2] at htr; simp at htr
      · intro _; rfl
    · intro m hm
      rw [hids] at hm
      simp only [Except.bind, htr, if_false] at hm
      exact absurd hm (by simp)

/-- Witness for the C8 theorem at a concrete matched firewall: with an
in-run policy of the referenced name the merger raises no fatal error. -/
theorem firewallPolicyFatalIffUnresolvable_witness :
    exceptIsError
        (createNetworkFirewallItem
          [{ logicalResourceId := "Fw1", properties := [("FirewallName", "fw")] }]
          (fun _ => some "subnet-1") (fun _ => none)
          (some ("pol", "arn-pol")) "Prod" "vpc-1"
          { name := "fw", vpc := "Prod", firewallPolicy := "pol", subnets := ["sub"],
            description := none, deleteProtection := none,
            firewallPolicyChangeProtection := none, subnetChangeProtection := none }) =
        true ↔
      (jsTruthyOptStr (inRunPolicyArn (some ("pol", "arn-pol")) "pol") = false ∧
       jsTruthyOptStr ((fun (_ : String) => (none : Option String))
          (ssmKey "nfwPolicy" ["pol"])) = false) :=
  (firewallPolicyFatalIffUnresolvable
    [{ logicalResourceId := "Fw1", properties := [("FirewallName", "fw")] }]
    (fun _ => some "subnet-1") (fun _ => none)
    (some ("pol", "arn-pol")) "Prod" "vpc-1"
    { name := "fw", vpc := "Prod", firewallPolicy := "pol", subnets := ["sub"],
      description := none, deleteProtection := none,
      firewallPolicyChangeProtection := none, subnetChangeProtection := none }
    { logicalResourceId := "Fw1", properties := [("FirewallName", "fw")] }
    rfl (by decide)).1

theorem jsFindTruthyStr_true_iff (l : List String) (id : String) (hid : id ≠ "") :
    jsFindTruthyStr l id = true ↔ id ∈ l := by
  rw [jsFindTruthyStr]
  cases h : l.find? (fun x => x == id) with
  | none =>
    simp only [Bool.false_eq_true, false_iff]
    intro hmem
    have := List.find?_eq_none.mp h id hmem
    simp at this
  | some s =>
    have hs := @List.find?_some _ _ _ _ h
    have hseq : s = id := by simpa using hs
    subst hseq
    simp only [beq_eq_false_iff_ne, ne_eq, Bool.not_eq_true']
    constructor
    · intro _; exact List.mem_of_find?_eq_some h
    · intro _; simpa using hid

theorem getS3DynamoDbRouteTableIds_cons (n : String) (e : RouteTableEntryModel)
    (routes : List RouteTableEntryModel) (id : String) (s3 dy : List String) :
    getS3DynamoDbRouteTableIds { name := n, routes := e :: routes } id s3 dy =
      getS3DynamoDbRouteTableIds { name := n, routes := routes } id
        (if e.target == "s3" && !(jsFindTruthyStr s3 id) then s3 ++ [id] else s3)
        (if e.target == "dynamodb" && !(jsFindTruthyStr dy id) then dy ++ [id] else dy) :=
  rfl

theorem append_singleton_nodup (l : List String) (id : String)
    (h : l.Nodup) (hmem : id ∉ l) : (l ++ [id]).Nodup := by
  rw [List.nodup_append]
  refine ⟨h, List.nodup_singleton id, ?_⟩
  intro a ha hb
  simp at hb
  subst hb
  exact hmem ha

theorem getS3DynamoDbRouteTableIds_invariant (id : String) (hid : id ≠ "")
    (n : String) (routes : List RouteTableEntryModel) :
    ∀ (s3 dy : List String),
      s3.Nodup → dy.Nodup → (∀ x ∈ s3, x ≠ "") → (∀ x ∈ dy, x ≠ "") →
      (getS3DynamoDbRouteTableIds { name := n, routes := routes } id s3 dy).fst.Nodup ∧
      (getS3DynamoDbRouteTableIds { name := n, routes := routes } id s3 dy).snd.Nodup ∧
      (∀ x ∈ (getS3DynamoDbRouteTableIds { name := n, routes := routes } id s3 dy).fst, x ≠ "") ∧
      (∀ x ∈ (getS3DynamoDbRouteTableIds { name := n, routes := routes } id s3 dy).snd, x ≠ "") := by
  induction routes with
  | nil =>
    intro s3 dy h1 h2 h3 h4
    exact ⟨h1, h2, h3, h4⟩
  | cons e routes ih =>
    intro s3 dy h1 h2 h3 h4
    rw [getS3DynamoDbRouteTableIds_cons]
    have hstep : ∀ (l : List String), l.Nodup → (∀ x ∈ l, x ≠ "") →
        ∀ (b : Bool),
          (if b && !(jsFindTruthyStr l id) then l ++ [id] else l).Nodup ∧
          (∀ x ∈ (if b && !(jsFindTruthyStr l id) then l ++ [id] else l), x ≠ "") := by
      intro l hl hall b
      cases hcond : b && !(jsFindTruthyStr l id) with
      | false => exact ⟨hl, hall⟩
      | true =>
        have hfind : jsFindTruthyStr l id = false := by
          simp only [Bool.and_eq_true] at hcond
          simpa using hcond.2
        have hnotmem : id ∉ l := by
          intro hmem
          rw [(jsFindTruthyStr_true_iff l id hid).mpr hmem] at hfind
          exact Bool.true_eq_false.mp hfind
        refine ⟨append_singleton_nodup l id hl hnotmem, ?_⟩
        intro x hx
        rcases List.mem_append.mp hx with hxl | hxid
        · exact hall x hxl
        · simp at hxid; subst hxid; exact hid
    obtain ⟨hn1, ha1⟩ := hstep s3 h1 h3 (e.target == "s3")
    obtain ⟨hn2, ha2⟩ := hstep dy h2 h4 (e.target == "dynamodb")
    exact ih _ _ hn1 hn2 ha1 ha2

theorem accumulateEndpointRouteTableIds_invariant (vpcName : String)
    (external : String → Option String) (routeTables : List RouteTableConfigModel) :
    ∀ (acc : List String × List String),
      acc.fst.Nodup → acc.snd.Nodup →
      (∀ x ∈ acc.fst, x ≠ "") → (∀ x ∈ acc.snd, x ≠ "") →
      ((routeTables.foldl
          (fun acc rt =>
            match external (ssmKey "routeTable" [vpcName, rt.name]) with
            | none => acc
            | some id =>
              if id == "" then acc
              else getS3DynamoDbRouteTableIds rt id acc.fst acc.snd) acc).fst.Nodup ∧
       (routeTables.foldl
          (fun acc rt =>
            match external (ssmKey "routeTable" [vpcName, rt.name]) with
            | none => acc
            | some id =>
              if id == "" then acc
              else getS3DynamoDbRouteTableIds rt id acc.fst acc.snd) acc).snd.Nodup) := by
  induction routeTables with
  | nil =>
    intro acc h1 h2 _ _
    exact ⟨h1, h2⟩
  | cons rt rts ih =>
    intro acc h1 h2 h3 h4
    rw [List.foldl_cons]
    cases hext : external (ssmKey "routeTable" [vpcName, rt.name]) with
    | none =>
      exact ih acc h1 h2 h3 h4
    | some id =>
      cases hempty : (id == "") with
      | true =>
        simp only [hempty]
        exact ih acc h1 h2 h3 h4
      | false =>
        have hid : id ≠ "" := by simpa using hempty
        obtain ⟨n, routes⟩ := rt
        obtain ⟨i1, i2, i3, i4⟩ :=
          getS3DynamoDbRouteTableIds_invariant id hid n routes acc.fst acc.snd h1 h2 h3 h4
        simp only [hempty]
        exact ih _ i1 i2 i3 i4

theorem pushMissing_nodup (serviceIds : List String) :
    ∀ (l : List String), l.Nodup →
      (serviceIds.foldl
        (fun acc id => if acc.contains id then acc else acc ++ [id]) l).Nodup := by
  induction serviceIds with
  | nil => intro l h; exact h
  | cons id rest ih =>
    intro l h
    rw [List.foldl_cons]
    apply ih
    cases hc : l.contains id with
    | true => exact h
    | false =>
      refine append_singleton_nodup l id h ?_
      intro hmem
      have hct : l.contains id = true := List.elem_iff.mpr hmem
      rw [hct] at hc
      exact Bool.true_eq_false.mp hc

/-- C10: the s3 and dynamodb route-table-identifier lists accumulated by
the gateway-endpoint merger never contain a duplicate identifier, and the
merge of the accumulated list into an endpoint's pre-existing route-table
list pushes an identifier only when absent, preserving the no-duplicates
invariant. -/
theorem endpointRouteTableIdsNodup :
    (∀ (vpcName : String) (routeTables : List RouteTableConfigModel)
      (external : String → Option String),
      (accumulateEndpointRouteTableIds vpcName routeTables external).fst.Nodup ∧
      (accumulateEndpointRouteTableIds vpcName routeTables external).snd.Nodup) ∧
    (∀ (l serviceIds m : List String), l.Nodup →
      mergeGatewayEndpointRouteTableIds (some l) serviceIds = some m → m.Nodup) := by
  constructor
  · intro vpcName routeTables external
    exact accumulateEndpointRouteTableIds_invariant vpcName external routeTables
      ([], []) List.nodup_nil List.nodup_nil (by simp) (by simp)
  · intro l serviceIds m hl hm
    rw [mergeGatewayEndpointRouteTableIds] at hm
    injection hm with hm'
    rw [← hm']
    exact pushMissing_nodup serviceIds l hl

/-- Witness for the C10 theorem: a concrete accumulation and a concrete
merge into a duplicate-free pre-existing list are duplicate-free. -/
theorem endpointRouteTableIdsNodup_witness :
    (accumulateEndpointRouteTableIds "Prod"
      [{ name := "rtA", routes := [{ target := "s3" }, { target := "dynamodb" }] }]
      (fun k => if k == "routeTable:Prod:rtA" then some "rt-1" else none)).fst.Nodup ∧
    List.Nodup ["rt-1", "rt-2"] :=
  ⟨(endpointRouteTableIdsNodup.1 "Prod"
      [{ name := "rtA", routes := [{ target := "s3" }, { target := "dynamodb" }] }]
      (fun k => if k == "routeTable:Prod:rtA" then some "rt-1" else none)).1,
   endpointRouteTableIdsNodup.2 ["rt-1"] ["rt-2"] ["rt-1", "rt-2"] (by decide) rfl⟩
